import Mathlib

/-!
Shallow embedding of the filter/query core of a local bibliographic-metadata
API (source files: bin/filter_utils.py, bin/handlers.py, bin/entity_router.py,
bin/es_handler.py), together with theorems checking the specification claims
about that core.

Python dictionaries are modelled as insertion-ordered association lists
(`List (String × BVal)`), Python values occurring in filter processing as the
inductive types `FValue` / `BVal`, and Python exceptions as `Except`.
-/

/-- Coerced filter value, as produced by parse_filter_value.
Python None is represented by `null`. -/
inductive FValue where
  | str (s : String)
  | int (n : Int)
  | bool (b : Bool)
  | null
deriving DecidableEq, Repr

/-- The value slot of a parsed filter expression: either a single coerced
scalar or a pipe-produced list of coerced scalars. -/
inductive FilterVal where
  | scalar (v : FValue)
  | list (vs : List FValue)
deriving DecidableEq, Repr

/-- BSON-like value appearing in a MongoDB query document. -/
inductive BVal where
  | str (s : String)
  | int (n : Int)
  | bool (b : Bool)
  | null
  | doc (fields : List (String × BVal))
  | arr (items : List BVal)

/-- A MongoDB query document: an insertion-ordered association list, the
model of a Python dict. -/
abbrev MQuery := List (String × BVal)

/-- Embeds a coerced filter value into a BSON value. -/
def FValue.toB : FValue → BVal
  | .str s => .str s
  | .int n => .int n
  | .bool b => .bool b
  | .null => .null

/-- Python-style split of a character list on a non-empty separator,
non-overlapping and left to right, keeping empty pieces. The fuel argument
(an upper bound on the number of steps) makes the recursion structural so
that closed terms evaluate definitionally. -/
def charsSplit (sep : List Char) : Nat → List Char → List Char → List (List Char)
  | _, [], acc => [acc.reverse]
  | 0, s, acc => [acc.reverse ++ s]
  | Nat.succ fuel, c :: rest, acc =>
    if sep.isEmpty then [acc.reverse ++ (c :: rest)]
    else if sep.isPrefixOf (c :: rest) then
      acc.reverse :: charsSplit sep fuel ((c :: rest).drop sep.length) []
    else charsSplit sep fuel rest (c :: acc)

/-- Python str.split(sep) for a non-empty separator. -/
def pySplit (s sep : String) : List String :=
  (charsSplit sep.toList (s.toList.length + 1) s.toList []).map String.mk

/-- Joins character-list pieces with a separator. -/
def charsIntercalate (sep : List Char) : List (List Char) → List Char
  | [] => []
  | [x] => x
  | x :: xs => x ++ sep ++ charsIntercalate sep xs

/-- Joins string pieces with a separator. -/
def pyIntercalate (sep : String) (xs : List String) : String :=
  String.mk (charsIntercalate sep.toList (xs.map String.toList))

/-- Python str.replace(pat, rep): replace every non-overlapping occurrence. -/
def pyReplace (s pat rep : String) : String :=
  pyIntercalate rep (pySplit s pat)

/-- Python str.strip(): remove leading and trailing whitespace. -/
def pyStrip (s : String) : String :=
  String.mk (((s.toList.dropWhile Char.isWhitespace).reverse.dropWhile Char.isWhitespace).reverse)

/-- Python str.lower() (ASCII). -/
def pyLower (s : String) : String :=
  String.mk (s.toList.map Char.toLower)

/-- Python str.startswith. -/
def pyStartsWith (s pre : String) : Bool :=
  pre.toList.isPrefixOf s.toList

/-- Python str.endswith. -/
def pyEndsWith (s suf : String) : Bool :=
  suf.toList.reverse.isPrefixOf s.toList.reverse

/-- Python substring test (the in operator on strings) for a non-empty
pattern. -/
def strContains (s pat : String) : Bool :=
  (pySplit s pat).length != 1

/-- Python dict assignment d[k] = v: replace in place when the key exists,
otherwise append at the end (insertion order preserved). -/
def dictInsert (d : MQuery) (k : String) (v : BVal) : MQuery :=
  if d.any (fun p => p.1 = k) then
    d.map (fun p => if p.1 = k then (k, v) else p)
  else d ++ [(k, v)]

/-- Python dict.update(e): assign every pair of e into d in order. -/
def dictUpdate (d e : MQuery) : MQuery :=
  e.foldl (fun acc p => dictInsert acc p.1 p.2) d

/-- First binding of a key in a query document (Python dict lookup). -/
def mLookup (k : String) (d : MQuery) : Option BVal :=
  (d.find? (fun p => p.1 = k)).map (fun p => p.2)

/-- Hexadecimal digit value of a character, for percent-decoding. -/
def hexVal (c : Char) : Option Nat :=
  if '0' ≤ c ∧ c ≤ '9' then some (c.toNat - '0'.toNat)
  else if 'a' ≤ c ∧ c ≤ 'f' then some (c.toNat - 'a'.toNat + 10)
  else if 'A' ≤ c ∧ c ≤ 'F' then some (c.toNat - 'A'.toNat + 10)
  else none

/-- Character-level percent-decoding, modelling urllib.parse.unquote on
single-byte (ASCII) percent escapes. -/
def unquoteChars : List Char → List Char
  | '%' :: h1 :: h2 :: rest =>
    match hexVal h1, hexVal h2 with
    | some a, some b => Char.ofNat (16 * a + b) :: unquoteChars rest
    | _, _ => '%' :: unquoteChars (h1 :: h2 :: rest)
  | c :: rest => c :: unquoteChars rest
  | [] => []

/-- Percent-decoding of a string (urllib.parse.unquote). -/
def pyUnquote (s : String) : String :=
  String.mk (unquoteChars s.toList)

/-- Validity of the digit tail of a Python integer literal: digits with
single underscores allowed only between digits. -/
def pyDigitsAux : List Char → Bool
  | [] => true
  | ['_'] => false
  | '_' :: c :: cs => c.isDigit && pyDigitsAux (c :: cs)
  | c :: cs => c.isDigit && pyDigitsAux cs

/-- Validity of the digit part of a Python integer literal: non-empty and
starting with a digit. -/
def pyDigitsValid : List Char → Bool
  | [] => false
  | c :: cs => c.isDigit && pyDigitsAux cs

/-- Decimal value of a digit list. -/
def digitsToNat (cs : List Char) : Nat :=
  cs.foldl (fun acc c => 10 * acc + (c.toNat - 48)) 0

/-- Python int(s) on a string: strip whitespace, optional sign, digits with
optional single underscores; none models a ValueError. -/
def pyIntOfString (s : String) : Option Int :=
  match (pyStrip s).toList with
  | '+' :: ds =>
    if pyDigitsValid ds then some (Int.ofNat (digitsToNat (ds.filter (fun c => c ≠ '_')))) else none
  | '-' :: ds =>
    if pyDigitsValid ds then some (-(Int.ofNat (digitsToNat (ds.filter (fun c => c ≠ '_'))))) else none
  | ds =>
    if pyDigitsValid ds then some (Int.ofNat (digitsToNat (ds.filter (fun c => c ≠ '_')))) else none

/-- FILTER_OPERATIONS from filter_utils.py, in dict insertion order. -/
def FILTER_OPERATIONS : List (String × String) :=
  [(":", "eq"), (">", "gt"), ("<", "lt"), (">=", "gte"), ("<=", "lte"),
   ("!=", "ne"), (".search:", "search"), (".equals:", "exact")]

/-- FILTER_TYPE_MAPPING from filter_utils.py: the fields mapped to the int
converter (the duplicated cited_by_count key of the source dict collapses). -/
def FILTER_TYPE_MAPPING : List String :=
  ["publication_year", "cited_by_count", "works_count", "level",
   "h_index", "i10_index", "counts", "year", "volume", "issue"]

/-- BOOLEAN_FIELDS from filter_utils.py. -/
def BOOLEAN_FIELDS : List String :=
  ["has_doi", "has_pdf", "has_references", "is_oa",
   "is_retracted", "has_fulltext", "is_paratext"]

/-- Last segment of value.split for the slash separator (Python negative
index -1 on a split result, which is always non-empty). -/
def lastSlashSegment (value : String) : String :=
  (pySplit value "/").getLastD value

/-- parse_filter_value from filter_utils.py: convert a raw filter value to
the appropriate type based on the field name. -/
def parse_filter_value (field_name value : String) : FValue :=
  if field_name ∈ BOOLEAN_FIELDS ∨ BOOLEAN_FIELDS.any (fun bf => pyEndsWith field_name ("." ++ bf)) then
    .bool (pyLower value ∈ ["true", "1", "yes", "t"])
  else if pyLower value ∈ ["null", "none"] then
    .null
  else if field_name ∈ FILTER_TYPE_MAPPING then
    match pyIntOfString value with
    | some n => .int n
    | none =>
      if (pyEndsWith field_name ".id" ∨ field_name = "id") ∧ strContains value "/" then
        .str (lastSlashSegment value)
      else .str value
  else
    if (pyEndsWith field_name ".id" ∨ field_name = "id") ∧ strContains value "/" then
      .str (lastSlashSegment value)
    else .str value

/-- Value normalization of parse_filter_expression: plus-to-space
normalization followed by percent-decoding (the URL query-string
convention). -/
def normValue (raw : String) : String :=
  pyUnquote (pyReplace raw "+" " ")

/-- Shared value-processing tail of parse_filter_expression: the normalized
value is either split on the pipe into independently coerced tokens or
coerced as a single scalar. -/
def coerceRawValue (field_name raw : String) : FilterVal :=
  let value := normValue raw
  if strContains value "|" then
    .list ((pySplit value "|").map (fun v => parse_filter_value field_name (pyStrip v)))
  else
    .scalar (parse_filter_value field_name value)

/-- Python split(sep, 1): the field part before the first occurrence of the
separator and the raw value part after it. -/
def splitOnce (s sep : String) : String × String :=
  let parts := pySplit s sep
  (parts.headD "", pyIntercalate sep parts.tail)

/-- parse_filter_expression from filter_utils.py: scan FILTER_OPERATIONS in
dict order for the first non-colon marker contained in the expression, fall
back to the bare colon, and return the empty triple (Python
("", "", None)) for an expression with no recognized separator. -/
def parse_filter_expression (filter_expr : String) : String × String × FilterVal :=
  match FILTER_OPERATIONS.find? (fun p => p.1 ≠ ":" ∧ strContains filter_expr p.1) with
  | some (op_str, op_name) =>
    let fv := splitOnce filter_expr op_str
    (fv.1, op_name, coerceRawValue fv.1 fv.2)
  | none =>
    if strContains filter_expr ":" then
      let fv := splitOnce filter_expr ":"
      (fv.1, "eq", coerceRawValue fv.1 fv.2)
    else ("", "", .scalar .null)

/-- op_map.get(operation, eq-default) from build_mongodb_query. -/
def opMap (operation : String) : String :=
  if operation = "eq" then "$eq"
  else if operation = "gt" then "$gt"
  else if operation = "lt" then "$lt"
  else if operation = "gte" then "$gte"
  else if operation = "lte" then "$lte"
  else if operation = "ne" then "$ne"
  else "$eq"

/-- Lower-casing of a coerced value for the language branch of
build_mongodb_query. The source calls value.lower(), which lower-cases a
string value and raises AttributeError for every other value (null, int,
bool); buildScalarRaises marks exactly those raising executions, so the
non-string case here is a placeholder that is meaningful only where
buildScalarRaises is false. -/
def fvalLower : FValue → FValue
  | .str s => .str (pyLower s)
  | v => v

/-- Key and value of the single-key query document produced by
build_mongodb_query on a scalar value: the operator special cases followed
by the field-name-driven special-case chain with fall-through, ending in
the plain field-comparison default; every branch of the source returns a
one-key dict, modelled here as the one key-value pair. -/
def buildScalarQueryKV (field operation : String) (value : FValue) : String × BVal :=
  if operation = "search" then
    (pyReplace field ".search" "", .doc [("$regex", value.toB), ("$options", .str "i")])
  else if operation = "exact" then
    (pyReplace field ".equals" "", value.toB)
  else if value = .null ∧ operation = "eq" then
    (field, .null)
  else if value = .null ∧ operation = "ne" then
    (field, .doc [("$ne", .null)])
  else
    let mongo_op := opMap operation
    if pyStartsWith field "authorships." ∧ (pySplit field ".").length ≥ 3 then
      ("authorships", .doc [("$elemMatch",
        .doc [(pyIntercalate "." (pySplit field ".").tail, .doc [(mongo_op, value.toB)])])])
    else if pyStartsWith field "institutions." ∧ (pySplit field ".").length ≥ 2 then
      ("institutions", .doc [("$elemMatch",
        .doc [((pySplit field ".").getD 1 "", .doc [(mongo_op, value.toB)])])])
    else if pyStartsWith field "concepts." ∧ (pySplit field ".").length ≥ 2 then
      ("concepts", .doc [("$elemMatch",
        .doc [((pySplit field ".").getD 1 "", .doc [(mongo_op, value.toB)])])])
    else if pyStartsWith field "source." ∧ (pySplit field ".").length ≥ 2 then
      ("$or", .arr [
        .doc [("primary_location.source." ++ (pySplit field ".").getD 1 "", .doc [(mongo_op, value.toB)])],
        .doc [("locations.source." ++ (pySplit field ".").getD 1 "", .doc [(mongo_op, value.toB)])]])
    else if field = "cited_by_count" then
      ("cited_by_count", .doc [(mongo_op, value.toB)])
    else if field = "has_doi" then
      ("ids.doi", .doc [("$exists", value.toB)])
    else if field = "has_pdf" then
      ("open_access.is_oa", value.toB)
    else if field = "has_references" then
      ("referenced_works", .doc [("$exists", value.toB), ("$ne", .arr [])])
    else if field = "is_oa" ∨ field = "open_access.is_oa" then
      ("open_access.is_oa", value.toB)
    else if field = "from_publication_date" then
      ("publication_date", .doc [(mongo_op, value.toB)])
    else if field = "to_publication_date" then
      ("publication_date", .doc [(mongo_op, value.toB)])
    else if field = "language" then
      ("language", (fvalLower value).toB)
    else if (field = "cites" ∨ field = "cites.id") ∧
        (match value with | .str s => pyStartsWith s "W" | _ => false) = true then
      ("referenced_works",
        .str (match value with
          | .str s => if strContains s "/" then lastSlashSegment s else s
          | _ => ""))
    else
      (field, .doc [(mongo_op, value.toB)])

/-- build_mongodb_query from filter_utils.py on a scalar value: the
single-key query document whose key and value buildScalarQueryKV gives. -/
def buildScalarQuery (field operation : String) (value : FValue) : MQuery :=
  [buildScalarQueryKV field operation value]

/-- build_mongodb_query from filter_utils.py: a list value (pipe-produced OR
list) recurses per element and wraps the results in a single $or node;
a scalar value goes through the special-case chain. -/
def build_mongodb_query (field operation : String) (value : FilterVal) : MQuery :=
  match value with
  | .list vs => [("$or", .arr (vs.map (fun v => .doc (buildScalarQuery field operation v))))]
  | .scalar v => buildScalarQuery field operation v

/-- Test for the Python None value in the value slot of a parsed expression
(value is None drops the expression in parse_filter_param). -/
def FilterVal.isNone : FilterVal → Bool
  | .scalar .null => true
  | _ => false

/-- Marks the executions in which build_mongodb_query on a scalar value
raises instead of returning: following the same branch chain as
buildScalarQueryKV, only the language branch can raise, by calling
value.lower() on a non-string value (AttributeError); every earlier branch
intercepts its cases and returns, and the later branches and the default
return for every value. The pair of this marker and buildScalarQueryKV
encodes the partial source function: the key-value pair is the result
exactly where this marker is false. -/
def buildScalarRaises (field operation : String) (value : FValue) : Bool :=
  if operation = "search" then false
  else if operation = "exact" then false
  else if value = .null ∧ operation = "eq" then false
  else if value = .null ∧ operation = "ne" then false
  else if pyStartsWith field "authorships." ∧ (pySplit field ".").length ≥ 3 then false
  else if pyStartsWith field "institutions." ∧ (pySplit field ".").length ≥ 2 then false
  else if pyStartsWith field "concepts." ∧ (pySplit field ".").length ≥ 2 then false
  else if pyStartsWith field "source." ∧ (pySplit field ".").length ≥ 2 then false
  else if field = "cited_by_count" then false
  else if field = "has_doi" then false
  else if field = "has_pdf" then false
  else if field = "has_references" then false
  else if field = "is_oa" ∨ field = "open_access.is_oa" then false
  else if field = "from_publication_date" then false
  else if field = "to_publication_date" then false
  else if field = "language" then
    (match value with | .str _ => false | _ => true)
  else false

/-- Marks the executions in which build_mongodb_query raises: for a
pipe-produced list the per-element loop raises as soon as one element
does (so the loop raises exactly when some element raises), for a scalar
the single build does. -/
def buildRaises (field operation : String) : FilterVal → Bool
  | .list vs => vs.any (fun v => buildScalarRaises field operation v)
  | .scalar v => buildScalarRaises field operation v

/-- Marks the expressions whose processing in the parse_filter_param loop
raises: the expression survives the emptiness and validity guards and its
build call raises. Whether an expression reaches its build call depends
only on the expression itself, never on the accumulated state, so this
per-expression marker is exact. -/
def filterParamStepRaises (e : String) : Bool :=
  let expr := pyStrip e
  if expr = "" then false
  else
    let fov := parse_filter_expression expr
    if fov.1 = "" ∨ fov.2.1 = "" ∨ fov.2.2.isNone then false
    else buildRaises fov.1 fov.2.1 fov.2.2

/-- Marks the filter strings on which parse_filter_param raises instead of
returning a query: some comma-separated expression reaches a raising build
call (the source stops at the first raiser, which exists exactly when some
expression raises). -/
def parse_filter_param_raises (filter_param : String) : Bool :=
  if filter_param = "" then false
  else (pySplit filter_param ",").any filterParamStepRaises

/-- One step of the expression loop of parse_filter_param, acting on the
accumulated (query, and_conditions) state. -/
def filterParamStep (acc : MQuery × List MQuery) (e : String) : MQuery × List MQuery :=
  let expr := pyStrip e
  if expr = "" then acc
  else
    let fov := parse_filter_expression expr
    if fov.1 = "" ∨ fov.2.1 = "" ∨ fov.2.2.isNone then acc
    else
      let expr_query := build_mongodb_query fov.1 fov.2.1 fov.2.2
      let need_and := expr_query.any (fun p => acc.1.any (fun q => q.1 = p.1))
      if need_and then (acc.1, acc.2 ++ [expr_query])
      else (dictUpdate acc.1 expr_query, acc.2)

/-- Final assembly of parse_filter_param: when collisions were routed into
and_conditions, the non-empty plain query is appended to them and the whole
result is wrapped in a single $and node. -/
def finalizeFilterQuery (acc : MQuery × List MQuery) : MQuery :=
  if acc.2.isEmpty then acc.1
  else if acc.1.isEmpty then [("$and", .arr (acc.2.map .doc))]
  else [("$and", .arr ((acc.2 ++ [acc.1]).map .doc))]

/-- The expression-list core of parse_filter_param. -/
def parseExprList (exprs : List String) : MQuery :=
  finalizeFilterQuery (exprs.foldl filterParamStep ([], []))

/-- parse_filter_param from filter_utils.py: split the filter string on
commas and fold the expressions into a MongoDB query object; an absent or
empty filter parameter gives the empty query. -/
def parse_filter_param (filter_param : String) : MQuery :=
  if filter_param = "" then [] else parseExprList (pySplit filter_param ",")

/-- Field list of parse_select_param: split on commas, strip, and drop
empty pieces. -/
def selectFields (select_param : String) : List String :=
  ((pySplit select_param ",").map pyStrip).filter (fun f => f ≠ "")

/-- Projection construction of parse_select_param over a field list: each
field is assigned the inclusion value 1, and the _id identity field is
appended when not already selected. -/
def selectProjection (fields : List String) : MQuery :=
  let projection := fields.foldl (fun acc f => dictInsert acc f (.int 1)) []
  if projection.any (fun p => p.1 = "_id") then projection
  else projection ++ [("_id", .int 1)]

/-- parse_select_param from filter_utils.py: comma-separated field list to
an inclusion projection, with the _id identity field always included. -/
def parse_select_param (select_param : String) : MQuery :=
  if select_param = "" then []
  else selectProjection (selectFields select_param)

/-- Successful outcome of BaseEntityHandler.search_entities: either the
zero-result response carrying an explanatory message (the early return for
an empty document fetch), or a result page with the has_more flag. -/
inductive SearchOutcome (D : Type) where
  | empty (skip limit : Nat) (message : String)
  | page (skip limit : Nat) (has_more : Bool) (results : List D)

/-- The has_more flag of a search outcome; the zero-result response carries
no such flag. -/
def SearchOutcome.hasMoreFlag {D : Type} : SearchOutcome D → Option Bool
  | .empty _ _ _ => none
  | .page _ _ h _ => some h

/-- The results list of a search outcome. -/
def SearchOutcome.resultsList {D : Type} : SearchOutcome D → List D
  | .empty _ _ _ => []
  | .page _ _ _ rs => rs

/-- Document-fetch and has-more logic of BaseEntityHandler.search_entities
(handlers.py): given the sorted matching documents, the cursor is advanced
by skip and capped at limit + 1 (one document beyond the limit, with no
separate count query); an empty fetch returns the zero-result response;
otherwise has_more is the fetched length exceeding the limit, and the extra
document is removed again before the page is returned. -/
def search_entities_page {D : Type} (docs : List D) (skip limit : Nat)
    (entity_name : String) : SearchOutcome D :=
  if ((docs.drop skip).take (limit + 1)).length = 0 then
    .empty skip limit ("No matching " ++ entity_name ++ "s found. Try different search terms.")
  else
    .page skip limit (decide (((docs.drop skip).take (limit + 1)).length > limit))
      (if ((docs.drop skip).take (limit + 1)).length > limit then
        ((docs.drop skip).take (limit + 1)).take limit
      else (docs.drop skip).take (limit + 1))

/-- Python exception in the search call chain: an HTTPException with a
status code and detail, or any other exception with its message. -/
inductive PyExc where
  | http (status : Nat) (detail : String)
  | other (msg : String)
deriving DecidableEq

/-- Python str(e) on an exception: a Starlette HTTPException renders as
status colon detail, any other exception as its message. -/
def pyStrOfExc : PyExc → String
  | .http s d => toString s ++ ": " ++ d
  | .other m => m

/-- Outer error wrapper of BaseEntityHandler.search_entities (handlers.py
lines 144 and 271-277): a raised error anywhere in the body is translated
into an HTTPException with status 503 and the index-still-being-built
detail. -/
def handler_search_wrap {D : Type} (body : Except String (SearchOutcome D)) :
    Except PyExc (SearchOutcome D) :=
  match body with
  | .ok r => .ok r
  | .error e => .error (.http 503
      ("Text search is not available - the search index is still being built. Error: " ++ e))

/-- Error handling of the search route in entity_router.py (lines 154-187):
the handler call sits in a try block whose except clause catches every
exception, the HTTPException raised by the handler included, and re-raises
it as an HTTPException with status 500 and detail str(e). -/
def route_search_fallback {D : Type} (handler_result : Except PyExc (SearchOutcome D)) :
    Except PyExc (SearchOutcome D) :=
  match handler_result with
  | .ok r => .ok r
  | .error e => .error (.http 500 (pyStrOfExc e))

/-- HTTP status received by the caller of the search route, when the route
raised an HTTPException. -/
def responseStatus {D : Type} : Except PyExc (SearchOutcome D) → Option Nat
  | .error (.http s _) => some s
  | .error (.other _) => none
  | .ok _ => none

/-- One hit of an external-index (Elasticsearch) response, carrying the
stored source document and the relevance score; hits arrive in rank order. -/
structure ESHit (D S : Type) where
  source : D
  score : S

/-- External-index response: the ranked hit list and the total count. -/
structure ESResponse (D S : Type) where
  hits : List (ESHit D S)
  total : Nat

/-- Result structure returned by ESHandler.search. -/
structure ESSearchResult (D S : Type) where
  results : List D
  total : Nat
  page : Nat
  per_page : Nat
  scores : List S

/-- Result shaping of ESHandler.search (es_handler.py lines 114-129): the
response documents are the stored sources of the hits, taken directly from
the external-index response in hit (rank) order; the scores are collected
in the same order into the meta field. The search route in entity_router.py
returns this result to the caller unchanged. -/
def es_search_result {D S : Type} (resp : ESResponse D S) (skip limit : Nat) :
    ESSearchResult D S :=
  { results := resp.hits.map (fun h => h.source)
  , total := resp.total
  , page := skip / limit + 1
  , per_page := limit
  , scores := resp.hits.map (fun h => h.score) }

/-- Query construction of BaseEntityHandler.list_entities (handlers.py lines
39-61): the name/title/year/type conveniences are assigned first, then the
filter-string-derived query is merged by dict.update, then the structured
extra_filters map is merged by dict.update. -/
def list_entities_query (entity_name : String) (name title : Option String)
    (year : Option Int) (type_param : Option String)
    (filter_param : String) (extra_filters : MQuery) : MQuery :=
  let query : MQuery := []
  let query := match name with
    | some n =>
      if n ≠ "" then
        dictInsert query (if entity_name = "work" then "title" else "display_name")
          (.doc [("$regex", .str n), ("$options", .str "i")])
      else query
    | none => query
  let query := match title with
    | some t =>
      if t ≠ "" then
        dictInsert query "title" (.doc [("$regex", .str t), ("$options", .str "i")])
      else query
    | none => query
  let query := match year with
    | some y => if y ≠ 0 then dictInsert query "publication_year" (.int y) else query
    | none => query
  let query := match type_param with
    | some t => if t ≠ "" then dictInsert query "type" (.str t) else query
    | none => query
  let query := if filter_param ≠ "" then dictUpdate query (parse_filter_param filter_param) else query
  if ¬ extra_filters.isEmpty then dictUpdate query extra_filters else query

/-- Projection selection of BaseEntityHandler.search_entities (handlers.py
lines 158-171): when a select parameter is given, the applied projection is
its parsed field selection with the score field assigned the textScore meta
expression on top; otherwise the (possibly defaulted) projection argument
is used. -/
def search_projection (select_param : String) (default_projection : MQuery) : MQuery :=
  if select_param ≠ "" then
    dictInsert (parse_select_param select_param) "score" (.doc [("$meta", .str "textScore")])
  else default_projection

/-- Replacing the value at one key does not change what a lookup for a
different key finds. -/
lemma find?_replace (d : MQuery) (k q : String) (v : BVal) (h : q ≠ k) :
    ((d.map (fun p => if p.1 = k then (k, v) else p)).find? (fun p => p.1 = q)) =
      d.find? (fun p => p.1 = q) := by
  induction d with
  | nil => rfl
  | cons p ps ih =>
    by_cases hp : p.1 = k
    · have h1 : ¬ ((k, v).1 = q) := fun hkq => h hkq.symm
      have h2 : ¬ (p.1 = q) := fun hpq => h ((hp.symm.trans hpq).symm)
      simp only [List.map_cons, if_pos hp]
      rw [List.find?_cons_of_neg _ (by simpa using h1), List.find?_cons_of_neg _ (by simpa using h2), ih]
    · simp only [List.map_cons, if_neg hp]
      by_cases hq : p.1 = q
      · rw [List.find?_cons_of_pos _ (by simpa using hq), List.find?_cons_of_pos _ (by simpa using hq)]
      · rw [List.find?_cons_of_neg _ (by simpa using hq), List.find?_cons_of_neg _ (by simpa using hq), ih]

/-- When some pair of the dictionary has the key, replacing that key's value
makes a lookup for the key find the new binding. -/
lemma find?_replace_self (d : MQuery) (k : String) (v : BVal)
    (h : d.any (fun p => p.1 = k) = true) :
    ((d.map (fun p => if p.1 = k then (k, v) else p)).find? (fun p => p.1 = k)) = some (k, v) := by
  induction d with
  | nil => simp at h
  | cons p ps ih =>
    by_cases hp : p.1 = k
    · simp only [List.map_cons, if_pos hp]
      rw [List.find?_cons_of_pos _ (by simp)]
    · have h' : ps.any (fun p => p.1 = k) = true := by
        simpa [List.any_cons, hp] using h
      simp only [List.map_cons, if_neg hp]
      rw [List.find?_cons_of_neg _ (by simpa using hp), ih h']

/-- Lookup after a Python dict assignment: the assigned key maps to the new
value and every other key is unchanged. -/
lemma mLookup_dictInsert (d : MQuery) (k : String) (v : BVal) (q : String) :
    mLookup q (dictInsert d k v) = if q = k then some v else mLookup q d := by
  unfold dictInsert
  by_cases hany : d.any (fun p => p.1 = k) = true
  · rw [if_pos hany]
    by_cases hq : q = k
    · subst hq
      rw [if_pos rfl]
      unfold mLookup
      rw [find?_replace_self d q v hany]
      rfl
    · rw [if_neg hq]
      unfold mLookup
      rw [find?_replace d k q v hq]
  · rw [if_neg hany]
    unfold mLookup
    rw [List.find?_append]
    by_cases hq : q = k
    · subst hq
      have hnone : d.find? (fun p => p.1 = q) = none := by
        rw [List.find?_eq_none]
        intro p hp hpq
        exact hany (List.any_eq_true.mpr ⟨p, hp, hpq⟩)
      rw [if_pos rfl, hnone]
      simp [List.find?_cons_of_pos]
    · rw [if_neg hq]
      have hlast : ([(k, v)].find? (fun p => p.1 = q)) = none := by
        rw [List.find?_eq_none]
        intro p hp hpq
        simp at hp
        subst hp
        exact hq (of_decide_eq_true hpq).symm
      rw [hlast]
      cases d.find? (fun p => p.1 = q) <;> rfl

/-- Lookup after Python dict.update with a key absent from the update map:
the original binding is unchanged. -/
lemma mLookup_dictUpdate_not_mem (d e : MQuery) (k : String)
    (h : ¬ k ∈ e.map Prod.fst) :
    mLookup k (dictUpdate d e) = mLookup k d := by
  induction e generalizing d with
  | nil => rfl
  | cons p ps ih =>
    have hk : k ≠ p.1 := fun hk => h (by simp [hk])
    have hps : ¬ k ∈ ps.map Prod.fst := fun hm => h (by simp [hm])
    show mLookup k (dictUpdate (dictInsert d p.1 p.2) ps) = mLookup k d
    rw [ih _ hps, mLookup_dictInsert, if_neg hk]

/-- Lookup after Python dict.update with a duplicate-free update map: a key
bound in the update map is looked up to its updated value. -/
lemma mLookup_dictUpdate_mem (d e : MQuery) (k : String) (v : BVal)
    (hnd : (e.map Prod.fst).Nodup) (h : mLookup k e = some v) :
    mLookup k (dictUpdate d e) = some v := by
  induction e generalizing d with
  | nil => simp [mLookup] at h
  | cons p ps ih =>
    have hnd' : (ps.map Prod.fst).Nodup := by simpa using hnd.of_cons
    by_cases hk : p.1 = k
    · have hv : v = p.2 := by
        unfold mLookup at h
        rw [List.find?_cons_of_pos _ (by simpa using hk)] at h
        simp at h
        exact h.symm
      have hnm : ¬ k ∈ ps.map Prod.fst := by
        have h0 : (p.1 :: ps.map Prod.fst).Nodup := by simpa using hnd
        rw [List.nodup_cons] at h0
        exact hk ▸ h0.1
      show mLookup k (dictUpdate (dictInsert d p.1 p.2) ps) = some v
      rw [mLookup_dictUpdate_not_mem _ _ _ hnm, mLookup_dictInsert, if_pos (hk.symm), hv]
    · have h' : mLookup k ps = some v := by
        unfold mLookup at h ⊢
        rwa [List.find?_cons_of_neg _ (by simpa using hk)] at h
      show mLookup k (dictUpdate (dictInsert d p.1 p.2) ps) = some v
      exact ih _ hnd' h'

/-- Lookup in a fold of inclusion assignments: a field of the list maps to
the inclusion value, any other key keeps its original binding. -/
lemma mLookup_foldl_insert (fields : List String) (d : MQuery) (f : String) :
    mLookup f (fields.foldl (fun acc g => dictInsert acc g (.int 1)) d) =
      if f ∈ fields then some (.int 1) else mLookup f d := by
  induction fields generalizing d with
  | nil => simp
  | cons g gs ih =>
    rw [List.foldl_cons, ih]
    by_cases hf : f ∈ gs
    · rw [if_pos hf, if_pos (List.mem_cons.mpr (Or.inr hf))]
    · rw [if_neg hf, mLookup_dictInsert]
      by_cases hg : f = g
      · rw [if_pos hg, if_pos (List.mem_cons.mpr (Or.inl hg))]
      · rw [if_neg hg, if_neg (by simp [hg, hf])]

/-- Every value in a fold of inclusion assignments over a
value-one dictionary is the inclusion value 1. -/
lemma foldl_insert_values_one (fields : List String) (d : MQuery)
    (hd : ∀ p ∈ d, p.2 = BVal.int 1) :
    ∀ p ∈ fields.foldl (fun acc g => dictInsert acc g (.int 1)) d, p.2 = BVal.int 1 := by
  induction fields generalizing d with
  | nil => exact hd
  | cons g gs ih =>
    rw [List.foldl_cons]
    apply ih
    intro p hp
    unfold dictInsert at hp
    split at hp
    · rcases List.mem_map.mp hp with ⟨q, hq, hqe⟩
      by_cases h1 : q.1 = g
      · rw [← hqe]; simp [h1]
      · rw [← hqe]; simp only [if_neg h1]; exact hd q hq
    · rcases List.mem_append.mp hp with h1 | h1
      · exact hd p h1
      · simp at h1; rw [h1]

/-- The identity field is always bound to the inclusion value in a select
projection. -/
lemma selectProjection_id (fields : List String) :
    mLookup "_id" (selectProjection fields) = some (.int 1) := by
  simp only [selectProjection]
  split
  · next hid =>
    rcases List.any_eq_true.mp hid with ⟨p, hmem, hkey⟩
    have hone : ∀ q ∈ fields.foldl (fun acc f => dictInsert acc f (.int 1)) [],
        q.2 = BVal.int 1 := foldl_insert_values_one fields [] (by simp)
    have hsome : ((fields.foldl (fun acc f => dictInsert acc f (.int 1)) []).find?
        (fun q => q.1 = "_id")).isSome := List.find?_isSome.mpr ⟨p, hmem, hkey⟩
    rcases Option.isSome_iff_exists.mp hsome with ⟨q, hq⟩
    have hq2 : q.2 = BVal.int 1 := hone q (List.mem_of_find?_eq_some hq)
    unfold mLookup
    rw [hq]
    simp [hq2]
  · next hid =>
    unfold mLookup
    rw [List.find?_append]
    have hnone : ((fields.foldl (fun acc f => dictInsert acc f (.int 1)) []).find?
        (fun q => q.1 = "_id")) = none := by
      rw [List.find?_eq_none]
      intro q hq hqk
      exact hid (List.any_eq_true.mpr ⟨q, hq, hqk⟩)
    rw [hnone]
    simp

/-- Every selected field is bound to the inclusion value in a select
projection. -/
lemma selectProjection_mem (fields : List String) (f : String) (hf : f ∈ fields) :
    mLookup f (selectProjection fields) = some (.int 1) := by
  have hl : mLookup f (fields.foldl (fun acc g => dictInsert acc g (.int 1)) []) =
      some (.int 1) := by
    rw [mLookup_foldl_insert, if_pos hf]
  simp only [selectProjection]
  split
  · exact hl
  · unfold mLookup at hl ⊢
    rw [List.find?_append]
    rcases Option.map_eq_some'.mp hl with ⟨q, hq, _⟩
    rw [hq]
    simpa [hq] using hl

/-- Keys after a Python dict assignment: unchanged on replacement, the new
key appended otherwise. -/
lemma dictInsert_keys (d : MQuery) (k : String) (v : BVal) :
    (dictInsert d k v).map Prod.fst =
      if d.any (fun p => p.1 = k) then d.map Prod.fst else d.map Prod.fst ++ [k] := by
  unfold dictInsert
  split
  · rw [List.map_map]
    apply List.map_congr_left
    intro p _
    by_cases hp : p.1 = k <;> simp [hp]
  · simp

/-- A Python dict assignment preserves duplicate-freeness of the keys. -/
lemma dictInsert_keys_nodup (d : MQuery) (k : String) (v : BVal)
    (h : (d.map Prod.fst).Nodup) : ((dictInsert d k v).map Prod.fst).Nodup := by
  rw [dictInsert_keys]
  split
  · exact h
  · next hany =>
    have hnm : ¬ k ∈ d.map Prod.fst := by
      intro hm
      rcases List.mem_map.mp hm with ⟨p, hp, he⟩
      exact hany (List.any_eq_true.mpr ⟨p, hp, by simp [he]⟩)
    simp [List.nodup_append, h, hnm]

/-- Python dict.update preserves duplicate-freeness of the keys. -/
lemma dictUpdate_keys_nodup (d e : MQuery) (h : (d.map Prod.fst).Nodup) :
    ((dictUpdate d e).map Prod.fst).Nodup := by
  induction e generalizing d with
  | nil => exact h
  | cons p ps ih => exact ih _ (dictInsert_keys_nodup _ _ _ h)

/-- The accumulated plain query of the parse_filter_param fold always has
duplicate-free keys. -/
lemma foldl_filterParamStep_keys_nodup (exprs : List String) (acc : MQuery × List MQuery)
    (h : (acc.1.map Prod.fst).Nodup) :
    (((exprs.foldl filterParamStep acc).1).map Prod.fst).Nodup := by
  induction exprs generalizing acc with
  | nil => exact h
  | cons e es ih =>
    rw [List.foldl_cons]
    apply ih
    simp only [filterParamStep]
    split
    · exact h
    · split
      · exact h
      · split
        · exact h
        · exact dictUpdate_keys_nodup _ _ h

/-- The query produced by parse_filter_param has duplicate-free keys. -/
lemma parse_filter_param_keys_nodup (s : String) :
    ((parse_filter_param s).map Prod.fst).Nodup := by
  unfold parse_filter_param
  split
  · simp
  · unfold parseExprList finalizeFilterQuery
    have h := foldl_filterParamStep_keys_nodup (pySplit s ",") ([], []) (by simp)
    split
    · exact h
    · split <;> simp

/-- Lookup after Python dict.update with a duplicate-free update map: the
updated binding wins, the original binding is the fallback. -/
lemma mLookup_dictUpdate (d e : MQuery) (k : String)
    (hnd : (e.map Prod.fst).Nodup) :
    mLookup k (dictUpdate d e) = (mLookup k e).or (mLookup k d) := by
  cases he : mLookup k e with
  | some v => rw [mLookup_dictUpdate_mem d e k v hnd he]; rfl
  | none =>
    have hnm : ¬ k ∈ e.map Prod.fst := by
      intro hm
      rcases List.mem_map.mp hm with ⟨p, hp, hpe⟩
      unfold mLookup at he
      rw [Option.map_eq_none'] at he
      rw [List.find?_eq_none] at he
      exact (he p hp) (by simp [hpe])
    rw [mLookup_dictUpdate_not_mem d e k hnm]
    rfl

/-- Every MongoDB query fragment built from one filter expression is a
single-key document. -/
lemma buildScalarQuery_singleton (f o : String) (v : FValue) :
    ∃ k b, buildScalarQuery f o v = [(k, b)] :=
  ⟨(buildScalarQueryKV f o v).1, (buildScalarQueryKV f o v).2, rfl⟩

/-- The query fragment of build_mongodb_query is always a single-key
document, for list values and scalar values alike. -/
lemma build_mongodb_query_singleton (f o : String) (v : FilterVal) :
    ∃ k b, build_mongodb_query f o v = [(k, b)] := by
  cases v with
  | list vs => exact ⟨_, _, rfl⟩
  | scalar x => exact buildScalarQuery_singleton f o x

/-- Absence of every operator marker in a filter expression (the condition
under which parse_filter_expression recognizes no separator). -/
def noFilterSeparator (e : String) : Bool :=
  FILTER_OPERATIONS.all (fun p => !(strContains e p.1))

/-- A filter expression containing no operator marker parses to the empty
triple (the Python ("", "", None)). -/
lemma parse_expr_no_sep (x : String) (h : noFilterSeparator x = true) :
    parse_filter_expression x = ("", "", .scalar .null) := by
  unfold parse_filter_expression
  have hall := List.all_eq_true.mp h
  have hfind : FILTER_OPERATIONS.find? (fun p => p.1 ≠ ":" ∧ strContains x p.1) = none := by
    rw [List.find?_eq_none]
    intro p hp hcond
    have h1 := hall p hp
    have h2 := of_decide_eq_true hcond
    rw [h2.2] at h1
    simp at h1
  rw [hfind]
  have hcolon := hall (":", "eq") (by simp [FILTER_OPERATIONS])
  rw [Bool.not_eq_true'] at hcolon
  rw [if_neg (by simp [hcolon])]

/-- An expression with no recognized separator contributes nothing to the
parse_filter_param fold. -/
lemma filterParamStep_drop (acc : MQuery × List MQuery) (e : String)
    (h : noFilterSeparator (pyStrip e) = true) :
    filterParamStep acc e = acc := by
  unfold filterParamStep
  by_cases he : pyStrip e = ""
  · rw [if_pos he]
  · rw [if_neg he]
    simp [parse_expr_no_sep _ h]

/-- C1: evaluation of the filter parser at the round-trip input of the
claim. The claim (and the docstring of parse_filter_expression itself)
states that publication_year:>2018 parses to field publication_year,
operator gt, integer 2018, and that cited_by_count:>=100 parses to
operator gte with integer 100, the multi-character markers being checked
before the bare colon. The code instead scans FILTER_OPERATIONS in dict
insertion order, where the single-character > precedes >=, and splits on
that marker, which leaves the trailing colon inside the field name; the
colon-bearing field then misses the integer coercion table, so both values
stay uncoerced strings and the second operator is gt over the string =100
rather than gte over 100. -/
theorem c1_operator_order_actual_parse :
    parse_filter_expression "publication_year:>2018" =
      ("publication_year:", "gt", .scalar (.str "2018")) ∧
    parse_filter_expression "cited_by_count:>=100" =
      ("cited_by_count:", "gt", .scalar (.str "=100")) ∧
    parse_filter_param "publication_year:>2018,cited_by_count:>=100" =
      [("publication_year:", .doc [("$gt", .str "2018")]),
       ("cited_by_count:", .doc [("$gt", .str "=100")])] :=
  ⟨rfl, rfl, rfl⟩

/-- C2: a filter expression whose raw value is the literal null does coerce
to the explicit null value, but parse_filter_param then discards the whole
expression, because its validity guard treats a None value as an
unparseable expression; so the filter doi:null produces the empty
predicate, not the field-is-null predicate, even though the predicate
builder has exactly that branch (shown here to be intact but unreachable
for a singleton null value); and for a boolean field the null literal is
not even coerced to null, boolean coercion winning with false. -/
theorem c2_null_value_expression_dropped :
    parse_filter_value "doi" "null" = .null ∧
    parse_filter_param "doi:null" = [] ∧
    parse_filter_param "doi!=null" = [] ∧
    build_mongodb_query "doi" "eq" (.scalar .null) = [("doi", .null)] ∧
    build_mongodb_query "doi" "ne" (.scalar .null) = [("doi", .doc [("$ne", .null)])] ∧
    parse_filter_value "is_oa" "null" = .bool false :=
  ⟨rfl, rfl, rfl, rfl, rfl, rfl⟩

/-- C3: when the body of the base handler search raises, the handler
translates the error into the distinct 503 search-unavailable condition,
but the search route of the entity router wraps the handler call in a
catch-all that re-raises every exception, this HTTPException included, as
a generic 500 server error; so the caller of the route receives status
500, not the 503-equivalent the claim requires. -/
theorem c3_search_error_masked_as_500 :
    responseStatus (handler_search_wrap
      (Except.error "text index required for $text query" :
        Except String (SearchOutcome Nat))) = some 503 ∧
    responseStatus (route_search_fallback (handler_search_wrap
      (Except.error "text index required for $text query" :
        Except String (SearchOutcome Nat)))) = some 500 ∧
    (500 : Nat) ≠ 503 :=
  ⟨rfl, rfl, by decide⟩

/-- C4: the documents of the final response of an external-index search are
exactly the stored sources of the hits in hit order: the response entry at
every rank position equals the source of the hit the external index ranked
there, and the lengths agree, so the externally determined rank order is
preserved end to end (the handler reads the documents straight out of the
ranked hit list and nothing reorders them afterwards). -/
theorem c4_es_search_preserves_rank_order {D S : Type} (resp : ESResponse D S)
    (skip limit i : Nat) :
    (es_search_result resp skip limit).results.length = resp.hits.length ∧
    (es_search_result resp skip limit).results[i]? = (resp.hits[i]?).map ESHit.source := by
  refine ⟨?_, ?_⟩ <;> simp [es_search_result]

/-- Step of the parse_filter_param fold on a successfully parsed expression:
the built query fragment is routed into the and_conditions list when its key
collides with the accumulated query, and merged directly otherwise. -/
lemma filterParamStep_parsed (acc : MQuery × List MQuery) (e f o : String) (v : FilterVal)
    (he : pyStrip e ≠ "")
    (hp : parse_filter_expression (pyStrip e) = (f, o, v))
    (hf : f ≠ "") (ho : o ≠ "") (hv : v.isNone = false) :
    filterParamStep acc e =
      if (build_mongodb_query f o v).any (fun p => acc.1.any (fun q => q.1 = p.1)) then
        (acc.1, acc.2 ++ [build_mongodb_query f o v])
      else (dictUpdate acc.1 (build_mongodb_query f o v), acc.2) := by
  simp only [filterParamStep, hp]
  rw [if_neg he, if_neg (by simp [hf, ho, hv])]

/-- C5 counterexample: the two-expression filter string
language>null|en,language<none|fr satisfies the premise of the claim as
stated (both expressions parse to the same field key language), but
parse_filter_param raises AttributeError instead of returning a predicate:
the first pipe token of each expression coerces to null, and the language
branch of build_mongodb_query calls value.lower() on it; so there is no
$and-wrapped pair of conditions for this input, refuting the universal
claim. -/
theorem c5_field_collision_counterexample :
    parse_filter_expression "language>null|en" =
      ("language", "gt", .list [.null, .str "en"]) ∧
    parse_filter_expression "language<none|fr" =
      ("language", "lt", .list [.null, .str "fr"]) ∧
    parse_filter_param_raises "language>null|en,language<none|fr" = true :=
  ⟨rfl, rfl, rfl⟩

/-- C5 amended: a two-expression filter string whose expressions produce
the same top-level field key and whose build calls do not raise (the sole
raising spot being the language branch on a non-string value): the fold
routes the colliding second query fragment into the and_conditions list
and the final assembly wraps both fragments under one $and node, so both
conditions are enforced and the later expression never overwrites the
earlier one. -/
theorem c5_field_collision_and_wrapped (s e1 e2 f1 o1 f2 o2 : String)
    (v1 v2 : FilterVal)
    (hsplit : pySplit s "," = [e1, e2])
    (hp1 : parse_filter_expression (pyStrip e1) = (f1, o1, v1))
    (hp2 : parse_filter_expression (pyStrip e2) = (f2, o2, v2))
    (hf1 : f1 ≠ "") (ho1 : o1 ≠ "") (hv1 : v1.isNone = false)
    (hf2 : f2 ≠ "") (ho2 : o2 ≠ "") (hv2 : v2.isNone = false)
    (hr1 : buildRaises f1 o1 v1 = false)
    (hr2 : buildRaises f2 o2 v2 = false)
    (hcol : (build_mongodb_query f2 o2 v2).any
        (fun p => (build_mongodb_query f1 o1 v1).any (fun q => q.1 = p.1)) = true) :
    parse_filter_param s =
      [("$and", .arr [.doc (build_mongodb_query f2 o2 v2),
                      .doc (build_mongodb_query f1 o1 v1)])] := by
  have hs : s ≠ "" := by
    intro h
    rw [h] at hsplit
    have h1 : pySplit "" "," = [""] := rfl
    rw [h1] at hsplit
    exact absurd hsplit (by simp)
  have he1 : pyStrip e1 ≠ "" := by
    intro h
    rw [h] at hp1
    have h1 : parse_filter_expression "" = ("", "", .scalar .null) := rfl
    rw [h1] at hp1
    exact hf1 (congrArg Prod.fst hp1).symm
  have he2 : pyStrip e2 ≠ "" := by
    intro h
    rw [h] at hp2
    have h1 : parse_filter_expression "" = ("", "", .scalar .null) := rfl
    rw [h1] at hp2
    exact hf2 (congrArg Prod.fst hp2).symm
  rcases build_mongodb_query_singleton f1 o1 v1 with ⟨k1, b1, hk1⟩
  rcases build_mongodb_query_singleton f2 o2 v2 with ⟨k2, b2, hk2⟩
  rw [parse_filter_param, if_neg hs, hsplit, parseExprList, List.foldl_cons,
      List.foldl_cons, List.foldl_nil]
  have step1 : filterParamStep ([], []) e1 = ([(k1, b1)], []) := by
    rw [filterParamStep_parsed ([], []) e1 f1 o1 v1 he1 hp1 hf1 ho1 hv1, hk1]
    simp [dictUpdate, dictInsert]
  have hcol2 : (build_mongodb_query f2 o2 v2).any
      (fun p => ([(k1, b1)] : MQuery).any (fun q => q.1 = p.1)) = true := by
    rw [← hk1]
    exact hcol
  have step2 : filterParamStep ([(k1, b1)], []) e2 = ([(k1, b1)], [[(k2, b2)]]) := by
    rw [filterParamStep_parsed ([(k1, b1)], []) e2 f2 o2 v2 he2 hp2 hf2 ho2 hv2,
        if_pos hcol2, hk2]
    rfl
  rw [step1, step2, hk1, hk2, finalizeFilterQuery]
  simp

/-- C5 witness: the merge-collision example filter string of the claim,
type:journal-article,type:book, whose builds do not raise, parses to the
$and of the two equality fragments, the later book condition not
overwriting the earlier one. -/
theorem c5_field_collision_witness :
    pySplit "type:journal-article,type:book" "," = ["type:journal-article", "type:book"] ∧
    buildRaises "type" "eq" (.scalar (.str "journal-article")) = false ∧
    buildRaises "type" "eq" (.scalar (.str "book")) = false ∧
    parse_filter_param "type:journal-article,type:book" =
      [("$and", .arr [.doc (build_mongodb_query "type" "eq" (.scalar (.str "book"))),
                      .doc (build_mongodb_query "type" "eq" (.scalar (.str "journal-article")))])] :=
  ⟨rfl, rfl, rfl, c5_field_collision_and_wrapped "type:journal-article,type:book"
    "type:journal-article" "type:book" "type" "eq" "type" "eq"
    (.scalar (.str "journal-article")) (.scalar (.str "book"))
    rfl rfl rfl (by decide) (by decide) rfl (by decide) (by decide) rfl rfl rfl rfl⟩

/-- C6: has-more detection of the primary-store search. Against a sorted
matching set of exactly skip + limit + 1 documents the outcome is a result
page with has_more true and exactly limit documents, and against a set of
exactly skip + limit documents a page with has_more false and limit
documents; the flag comes from fetching limit + 1 documents past the skip
and comparing the fetched length with the limit, with no count query. -/
theorem c6_search_has_more_detection {D : Type} (docs1 docs2 : List D)
    (skip limit : Nat) (ename : String)
    (hlim1 : 1 ≤ limit) (hlim2 : limit ≤ 100)
    (hlen1 : docs1.length = skip + limit + 1)
    (hlen2 : docs2.length = skip + limit) :
    (search_entities_page docs1 skip limit ename).hasMoreFlag = some true ∧
    (search_entities_page docs1 skip limit ename).resultsList.length = limit ∧
    (search_entities_page docs2 skip limit ename).hasMoreFlag = some false ∧
    (search_entities_page docs2 skip limit ename).resultsList.length = limit := by
  have hd1 : ((docs1.drop skip).take (limit + 1)).length = limit + 1 := by
    rw [List.length_take, List.length_drop, hlen1]
    omega
  have hd2 : ((docs2.drop skip).take (limit + 1)).length = limit := by
    rw [List.length_take, List.length_drop, hlen2]
    omega
  refine ⟨?_, ?_, ?_, ?_⟩
  · rw [search_entities_page, if_neg (by rw [hd1]; omega)]
    simp [SearchOutcome.hasMoreFlag, hd1]
  · rw [search_entities_page, if_neg (by rw [hd1]; omega)]
    simp [SearchOutcome.resultsList, hd1, List.length_take]
  · rw [search_entities_page, if_neg (by rw [hd2]; omega)]
    simp [SearchOutcome.hasMoreFlag, hd2]
  · rw [search_entities_page, if_neg (by rw [hd2]; omega)]
    simp [SearchOutcome.resultsList, hd2]

/-- C6 witness: limit 10 and skip 0 over exactly 11 matching documents give
has_more true with 10 results, and over exactly 10 documents has_more false
with 10 results. -/
theorem c6_search_has_more_witness :
    (search_entities_page (List.range 11) 0 10 "work").hasMoreFlag = some true ∧
    (search_entities_page (List.range 11) 0 10 "work").resultsList.length = 10 ∧
    (search_entities_page (List.range 10) 0 10 "work").hasMoreFlag = some false ∧
    (search_entities_page (List.range 10) 0 10 "work").resultsList.length = 10 :=
  c6_search_has_more_detection (List.range 11) (List.range 10) 0 10 "work"
    (by decide) (by decide) (by simp) (by simp)

/-- C7 counterexample: the pipe value null|en for the language field under
the gt operator satisfies the premise of the claim as stated (the raw
value contains the pipe), but the source raises AttributeError instead of
building an $or node: the first token coerces to null, and the language
branch of build_mongodb_query calls value.lower() on it; no predicate is
built, and a filter string carrying the expression makes parse_filter_param
raise, refuting the universal claim. -/
theorem c7_pipe_or_counterexample :
    strContains (normValue "null|en") "|" = true ∧
    coerceRawValue "language" "null|en" = .list [.null, .str "en"] ∧
    buildRaises "language" "gt" (coerceRawValue "language" "null|en") = true ∧
    parse_filter_param_raises "language>null|en" = true :=
  ⟨rfl, rfl, rfl, rfl⟩

/-- C7 amended: a filter value containing the pipe whose build does not
raise (the sole raising spot being the language branch on a non-string
token) builds a single $or node whose branch list has exactly one branch
per pipe-separated token, each branch being the query fragment built from
the same field and operator applied to that token's independently coerced
(stripped) value. -/
theorem c7_pipe_or_node (f o raw : String)
    (h : strContains (normValue raw) "|" = true)
    (hraise : buildRaises f o (coerceRawValue f raw) = false) :
    build_mongodb_query f o (coerceRawValue f raw) =
      [("$or", .arr ((pySplit (normValue raw) "|").map
        (fun t => .doc (buildScalarQuery f o (parse_filter_value f (pyStrip t))))))] ∧
    ((pySplit (normValue raw) "|").map
        (fun t => BVal.doc (buildScalarQuery f o (parse_filter_value f (pyStrip t))))).length =
      (pySplit (normValue raw) "|").length := by
  constructor
  · simp only [coerceRawValue]
    rw [if_pos h]
    simp only [build_mongodb_query, List.map_map]
    rfl
  · exact List.length_map _ _

/-- C7 witness: the non-raising pipe value 2020|2021 for publication_year
builds an $or node with one branch per token. -/
theorem c7_pipe_or_witness :
    strContains (normValue "2020|2021") "|" = true ∧
    buildRaises "publication_year" "eq" (coerceRawValue "publication_year" "2020|2021") = false ∧
    build_mongodb_query "publication_year" "eq" (coerceRawValue "publication_year" "2020|2021") =
      [("$or", .arr ((pySplit (normValue "2020|2021") "|").map
        (fun t => .doc (buildScalarQuery "publication_year" "eq"
          (parse_filter_value "publication_year" (pyStrip t))))))] :=
  ⟨rfl, rfl, (c7_pipe_or_node "publication_year" "eq" "2020|2021" rfl rfl).1⟩

/-- C8: filter parsing is total and silently degrading. A known numeric
field whose value fails the integer parse (and is not the null literal)
coerces to the original string unchanged, and an expression containing no
recognized operator marker is discarded by parse_filter_param, the result
being the predicate built from the remaining expressions alone. -/
theorem c8_total_coercion_and_silent_discard (field v s e : String) (es : List String)
    (hfield : field ∈ FILTER_TYPE_MAPPING)
    (hint : pyIntOfString v = none)
    (hnull : ¬ pyLower v ∈ ["null", "none"])
    (hs : s ≠ "")
    (hsplit : pySplit s "," = e :: es)
    (hnosep : noFilterSeparator (pyStrip e) = true) :
    parse_filter_value field v = .str v ∧
    parse_filter_param s = parseExprList es := by
  constructor
  · have hbool : ¬ (field ∈ BOOLEAN_FIELDS ∨
        BOOLEAN_FIELDS.any (fun bf => pyEndsWith field ("." ++ bf)) = true) := by
      fin_cases hfield <;> decide
    have hid : ¬ ((pyEndsWith field ".id" = true ∨ field = "id") ∧ strContains v "/" = true) := by
      rintro ⟨h1 | h2, _⟩
      · revert h1
        fin_cases hfield <;> decide
      · revert h2
        fin_cases hfield <;> decide
    simp only [parse_filter_value, hint]
    rw [if_neg hbool, if_neg hnull, if_pos hfield, if_neg hid]
  · rw [parse_filter_param, if_neg hs, hsplit, parseExprList, List.foldl_cons,
        filterParamStep_drop _ _ hnosep]
    rfl

/-- C8 witness: the value abc for the numeric field publication_year falls
back to the original string, and the separator-free expression garbage is
discarded while the rest of the filter string still parses. -/
theorem c8_total_coercion_witness :
    parse_filter_value "publication_year" "abc" = .str "abc" ∧
    parse_filter_param "garbage,type:book" = parseExprList ["type:book"] :=
  c8_total_coercion_and_silent_discard "publication_year" "abc" "garbage,type:book"
    "garbage" ["type:book"] (by decide) rfl (by decide) (by decide) rfl rfl

/-- C9: in the list operation the structured extra_filters map is merged by
dict.update after the filter-string-derived predicate, so a top-level key
bound by both sources resolves to the extra_filters binding (the structured
pre-filter replaces the filter-string condition), and a key bound by only
one of the two keeps that binding. -/
theorem c9_extra_filters_overwrite (ename filter_param : String) (extra : MQuery)
    (k : String) (hnd : (extra.map Prod.fst).Nodup) :
    mLookup k (list_entities_query ename none none none none filter_param extra) =
      (mLookup k extra).or (mLookup k (parse_filter_param filter_param)) := by
  have hq : list_entities_query ename none none none none filter_param extra =
      (if ¬ extra.isEmpty then
        dictUpdate (if filter_param ≠ "" then dictUpdate [] (parse_filter_param filter_param)
          else []) extra
      else (if filter_param ≠ "" then dictUpdate [] (parse_filter_param filter_param)
        else [])) := rfl
  have hppf := parse_filter_param_keys_nodup filter_param
  have hbase : mLookup k (if filter_param ≠ "" then
      dictUpdate [] (parse_filter_param filter_param) else []) =
      mLookup k (parse_filter_param filter_param) := by
    by_cases hfp : filter_param = ""
    · rw [if_neg (by simp [hfp]), hfp]
      rfl
    · rw [if_pos hfp, mLookup_dictUpdate _ _ _ hppf]
      cases mLookup k (parse_filter_param filter_param) <;> rfl
  rw [hq]
  by_cases hex : extra.isEmpty
  · have hexnil : extra = [] := by
      cases extra with
      | nil => rfl
      | cons p ps => simp [List.isEmpty] at hex
    rw [if_neg (by simp [hex]), hbase, hexnil]
    rfl
  · rw [if_pos (by simp [hex]), mLookup_dictUpdate _ _ _ hnd, hbase]

/-- C9 witness: with a filter string binding the type and publication_year
keys and an extra_filters map binding type, the merged query resolves type
to the extra_filters condition and carries publication_year from the
filter string. -/
theorem c9_extra_filters_witness :
    mLookup "type" (list_entities_query "work" none none none none
      "type:journal-article,publication_year:2020" [("type", .str "book")]) =
      some (.str "book") ∧
    mLookup "publication_year" (list_entities_query "work" none none none none
      "type:journal-article,publication_year:2020" [("type", .str "book")]) =
      some (.doc [("$eq", .int 2020)]) := by
  have h1 := c9_extra_filters_overwrite "work" "type:journal-article,publication_year:2020"
    [("type", .str "book")] "type" (by simp)
  have h2 := c9_extra_filters_overwrite "work" "type:journal-article,publication_year:2020"
    [("type", .str "book")] "publication_year" (by simp)
  rw [h1, h2]
  exact ⟨rfl, rfl⟩

/-- C10: with a select parameter the projection actually applied to the
primary-store search is the parsed field selection with the textScore score
field inserted on top and the identity field _id always included; so the
score field is projected in even when the caller never selected it. -/
theorem c10_projection_always_adds_score (select_param : String) (dflt : MQuery)
    (f : String) (hs : select_param ≠ "")
    (hf : f ∈ selectFields select_param) (hfs : f ≠ "score") :
    mLookup "score" (search_projection select_param dflt) =
      some (.doc [("$meta", .str "textScore")]) ∧
    mLookup "_id" (search_projection select_param dflt) = some (.int 1) ∧
    mLookup f (search_projection select_param dflt) = some (.int 1) := by
  have hsp : search_projection select_param dflt =
      dictInsert (selectProjection (selectFields select_param)) "score"
        (.doc [("$meta", .str "textScore")]) := by
    rw [search_projection, if_pos hs, parse_select_param, if_neg hs]
  refine ⟨?_, ?_, ?_⟩
  · rw [hsp, mLookup_dictInsert, if_pos rfl]
  · rw [hsp, mLookup_dictInsert, if_neg (by decide), selectProjection_id]
  · rw [hsp, mLookup_dictInsert, if_neg hfs, selectProjection_mem _ _ hf]

/-- C10 witness: the select parameter id,title yields a projection that
binds score to the textScore meta expression and includes _id and the
selected field id. -/
theorem c10_projection_score_witness :
    mLookup "score" (search_projection "id,title" []) =
      some (.doc [("$meta", .str "textScore")]) ∧
    mLookup "_id" (search_projection "id,title" []) = some (.int 1) ∧
    mLookup "id" (search_projection "id,title" []) = some (.int 1) :=
  c10_projection_always_adds_score "id,title" [] "id" (by decide) (by decide) (by decide)
